import Mathlib

/-!
Verification of the AgIsoTerminalDesigner editing core against its
natural-language specification.

The development shallowly embeds the relevant source modules:
  * `allowed_object_relationships.rs` - the per-VT-version relationship schema,
  * `editor_project.rs` - the transactional project state engine
    (commit / undo / redo, selection history, ID allocation, object metadata),
  * `smart_naming.rs` - the naming engine,
  * `object_info.rs` - per-object metadata.

External library types (`ObjectType`, `VtVersion`, `ObjectId`, `ObjectPool`
from the ag_iso_stack object-pool crate) are embedded at the granularity the
source observes them: object ids are Nat values in 0..=65534 with 65535 the
reserved NULL, pool equality is structural, and an object exposes its type tag
plus the fields the naming engine inspects.
-/

namespace AgIso

/-- Object type tags of the VT object model, exactly the variants the source
matches on (`ObjectType` of the ag_iso_stack crate as used by
`smart_naming.rs` and `allowed_object_relationships.rs`). -/
inductive ObjectType where
  | WorkingSet | DataMask | AlarmMask | Container | SoftKeyMask | Key | Button
  | InputBoolean | InputString | InputNumber | InputList
  | OutputString | OutputNumber | OutputList | OutputLine | OutputRectangle
  | OutputEllipse | OutputPolygon | OutputMeter | OutputLinearBarGraph
  | OutputArchedBarGraph | PictureGraphic | NumberVariable | StringVariable
  | FontAttributes | LineAttributes | FillAttributes | InputAttributes
  | ObjectPointer | Macro | AuxiliaryFunctionType1 | AuxiliaryInputType1
  | AuxiliaryFunctionType2 | AuxiliaryInputType2 | AuxiliaryControlDesignatorType2
  | ColourMap | GraphicsContext | ColourPalette | GraphicData
  | WorkingSetSpecialControls | ScaledGraphic | WindowMask | KeyGroup
  | ExtendedInputAttributes | ObjectLabelReferenceList | ExternalObjectDefinition
  | ExternalReferenceName | ExternalObjectPointer | Animation
  deriving DecidableEq, Repr, Fintype

/-- VT versions (`VtVersion` of the ag_iso_stack crate); the schema code
compares them with the derived total order. -/
inductive VtVersion where
  | Version2 | Version3 | Version4 | Version5 | Version6
  deriving DecidableEq, Repr, Fintype

def VtVersion.toNat : VtVersion → Nat
  | .Version2 => 2
  | .Version3 => 3
  | .Version4 => 4
  | .Version5 => 5
  | .Version6 => 6

instance : LE VtVersion := ⟨fun a b => a.toNat ≤ b.toNat⟩

instance (a b : VtVersion) : Decidable (a ≤ b) :=
  inferInstanceAs (Decidable (a.toNat ≤ b.toNat))

/-! The relationship schema, from `allowed_object_relationships.rs`.
Each `impl AllowedChildRefs for T` becomes a definition `T_allowed_child_refs`;
the Rust code builds a vector and conditionally extends it, which we mirror
with conditional list appends (`version >= VtVersion::VersionN` is
`VtVersion.VersionN ≤ version`). -/

def WorkingSet_allowed_child_refs (version : VtVersion) : List ObjectType :=
  let allowed : List ObjectType :=
    [.OutputString, .OutputNumber, .OutputLine, .OutputRectangle,
     .OutputEllipse, .OutputPolygon, .PictureGraphic]
  let allowed := if VtVersion.Version4 ≤ version then
      allowed ++ [.OutputList, .OutputMeter, .OutputLinearBarGraph,
                  .OutputArchedBarGraph, .GraphicsContext, .ObjectPointer]
    else allowed
  if VtVersion.Version6 ≤ version then allowed ++ [.ScaledGraphic] else allowed

def DataMask_allowed_child_refs (version : VtVersion) : List ObjectType :=
  let allowed : List ObjectType :=
    [.Container, .Button, .InputBoolean, .InputString, .InputNumber,
     .InputList, .OutputString, .OutputNumber, .OutputLine, .OutputRectangle,
     .OutputEllipse, .OutputPolygon, .OutputMeter, .OutputLinearBarGraph,
     .OutputArchedBarGraph, .PictureGraphic, .ObjectPointer]
  let allowed := if VtVersion.Version3 ≤ version then allowed ++ [.WorkingSet] else allowed
  let allowed := if VtVersion.Version4 ≤ version then
      allowed ++ [.OutputList, .GraphicsContext] else allowed
  let allowed := if VtVersion.Version5 ≤ version then
      allowed ++ [.Animation, .ExternalObjectPointer] else allowed
  if VtVersion.Version6 ≤ version then allowed ++ [.ScaledGraphic] else allowed

def AlarmMask_allowed_child_refs (version : VtVersion) : List ObjectType :=
  let allowed : List ObjectType :=
    [.Container, .OutputString, .OutputNumber, .OutputLine, .OutputRectangle,
     .OutputEllipse, .OutputPolygon, .OutputMeter, .OutputLinearBarGraph,
     .OutputArchedBarGraph, .PictureGraphic, .ObjectPointer]
  let allowed := if VtVersion.Version3 ≤ version then allowed ++ [.WorkingSet] else allowed
  let allowed := if VtVersion.Version4 ≤ version then
      allowed ++ [.OutputList, .GraphicsContext] else allowed
  let allowed := if VtVersion.Version5 ≤ version then
      allowed ++ [.Animation, .ExternalObjectPointer] else allowed
  if VtVersion.Version6 ≤ version then allowed ++ [.ScaledGraphic] else allowed

/-- As of VT version 6, the same objects are allowed in a container as in a
data mask (the source delegates to the DataMask rule). -/
def Container_allowed_child_refs (version : VtVersion) : List ObjectType :=
  DataMask_allowed_child_refs version

def SoftKeyMask_allowed_child_refs (version : VtVersion) : List ObjectType :=
  let allowed : List ObjectType := [.Key, .ObjectPointer]
  if VtVersion.Version5 ≤ version then allowed ++ [.ExternalObjectPointer] else allowed

def Key_allowed_child_refs (version : VtVersion) : List ObjectType :=
  let allowed : List ObjectType :=
    [.Container, .OutputString, .OutputNumber, .OutputLine, .OutputRectangle,
     .OutputEllipse, .OutputPolygon, .PictureGraphic, .ObjectPointer]
  let allowed := if VtVersion.Version4 ≤ version then
      allowed ++ [.WorkingSet, .OutputList, .OutputMeter, .OutputLinearBarGraph,
                  .OutputArchedBarGraph, .GraphicsContext]
    else allowed
  let allowed := if VtVersion.Version5 ≤ version then
      allowed ++ [.Animation, .ExternalObjectPointer] else allowed
  if VtVersion.Version6 ≤ version then allowed ++ [.ScaledGraphic] else allowed

/-- The source delegates the Button rule to the Key rule. -/
def Button_allowed_child_refs (version : VtVersion) : List ObjectType :=
  Key_allowed_child_refs version

def InputList_allowed_child_refs (version : VtVersion) : List ObjectType :=
  let allowed : List ObjectType := [.OutputString, .OutputNumber, .PictureGraphic]
  let allowed := if VtVersion.Version4 ≤ version then
      allowed ++ [.WorkingSet, .Container, .OutputList, .OutputLine,
                  .OutputRectangle, .OutputEllipse, .OutputPolygon, .OutputMeter,
                  .OutputLinearBarGraph, .OutputArchedBarGraph, .GraphicsContext,
                  .ObjectPointer]
    else allowed
  let allowed := if VtVersion.Version5 ≤ version then
      allowed ++ [.ExternalObjectPointer] else allowed
  if VtVersion.Version6 ≤ version then allowed ++ [.ScaledGraphic] else allowed

def WindowMask_allowed_child_refs (version : VtVersion) : List ObjectType :=
  let allowed : List ObjectType := []
  let allowed := if VtVersion.Version4 ≤ version then
      allowed ++ [.WorkingSet, .Container, .Button, .InputBoolean, .InputString,
                  .InputNumber, .InputList, .OutputString, .OutputNumber,
                  .OutputList, .OutputLine, .OutputRectangle, .OutputEllipse,
                  .OutputPolygon, .OutputMeter, .OutputLinearBarGraph,
                  .OutputArchedBarGraph, .GraphicsContext, .PictureGraphic,
                  .ObjectPointer]
    else allowed
  let allowed := if VtVersion.Version5 ≤ version then
      allowed ++ [.Animation, .ExternalObjectPointer] else allowed
  if VtVersion.Version6 ≤ version then allowed ++ [.ScaledGraphic] else allowed

/-- The source delegates the OutputList rule to the WindowMask rule. -/
def OutputList_allowed_child_refs (version : VtVersion) : List ObjectType :=
  WindowMask_allowed_child_refs version

def AuxiliaryFunctionType1_allowed_child_refs (_version : VtVersion) : List ObjectType :=
  [.OutputString, .OutputNumber, .OutputLine, .OutputRectangle,
   .OutputEllipse, .OutputPolygon, .PictureGraphic]

def AuxiliaryInputType1_allowed_child_refs (version : VtVersion) : List ObjectType :=
  AuxiliaryFunctionType1_allowed_child_refs version

def AuxiliaryFunctionType2_allowed_child_refs (version : VtVersion) : List ObjectType :=
  let allowed : List ObjectType := []
  let allowed := if VtVersion.Version3 ≤ version then
      allowed ++ [.Container, .OutputString, .OutputNumber, .OutputLine,
                  .OutputRectangle, .OutputEllipse, .OutputPolygon, .OutputMeter,
                  .OutputLinearBarGraph, .OutputArchedBarGraph, .PictureGraphic,
                  .ObjectPointer]
    else allowed
  let allowed := if VtVersion.Version4 ≤ version then
      allowed ++ [.OutputList, .GraphicsContext] else allowed
  if VtVersion.Version6 ≤ version then allowed ++ [.ScaledGraphic] else allowed

def AuxiliaryInputType2_allowed_child_refs (version : VtVersion) : List ObjectType :=
  AuxiliaryFunctionType2_allowed_child_refs version

def KeyGroup_allowed_child_refs (version : VtVersion) : List ObjectType :=
  if VtVersion.Version4 ≤ version then [.Key] else []

def Animation_allowed_child_refs (version : VtVersion) : List ObjectType :=
  let allowed : List ObjectType := []
  let allowed := if VtVersion.Version5 ≤ version then
      allowed ++ [.Container, .OutputString, .OutputNumber, .OutputList,
                  .OutputLine, .OutputRectangle, .OutputEllipse, .OutputPolygon,
                  .OutputMeter, .OutputLinearBarGraph, .OutputArchedBarGraph,
                  .GraphicsContext, .PictureGraphic, .ObjectPointer]
    else allowed
  if VtVersion.Version6 ≤ version then allowed ++ [.ScaledGraphic] else allowed

def ObjectLabelReferenceList_allowed_child_refs (version : VtVersion) : List ObjectType :=
  if VtVersion.Version4 ≤ version then ([] : List ObjectType) ++ [] else []

/-- Dispatch function `get_allowed_child_refs` of
`allowed_object_relationships.rs`: every object type not listed returns the
empty set. -/
def get_allowed_child_refs (obj_type : ObjectType) (version : VtVersion) :
    List ObjectType :=
  match obj_type with
  | .WorkingSet => WorkingSet_allowed_child_refs version
  | .DataMask => DataMask_allowed_child_refs version
  | .AlarmMask => AlarmMask_allowed_child_refs version
  | .Container => Container_allowed_child_refs version
  | .SoftKeyMask => SoftKeyMask_allowed_child_refs version
  | .Key => Key_allowed_child_refs version
  | .Button => Button_allowed_child_refs version
  | .InputList => InputList_allowed_child_refs version
  | .OutputList => OutputList_allowed_child_refs version
  | .AuxiliaryFunctionType1 => AuxiliaryFunctionType1_allowed_child_refs version
  | .AuxiliaryInputType1 => AuxiliaryInputType1_allowed_child_refs version
  | .AuxiliaryFunctionType2 => AuxiliaryFunctionType2_allowed_child_refs version
  | .AuxiliaryInputType2 => AuxiliaryInputType2_allowed_child_refs version
  | .WindowMask => WindowMask_allowed_child_refs version
  | .KeyGroup => KeyGroup_allowed_child_refs version
  | .Animation => Animation_allowed_child_refs version
  | .ObjectLabelReferenceList => ObjectLabelReferenceList_allowed_child_refs version
  | _ => []

/-! Decimal rendering of a natural number, embedding what Rust's integer
`Display` (`format!` with a plain placeholder) produces. Written with
structural fuel so that it is kernel-computable; the fuel `n` always
suffices since the digit count of `n` is at most `n` for `n > 0`. -/

/-- Little-endian base-10 digit list of `n` (empty for 0), with fuel. -/
def natDigitsRev : Nat → Nat → List Nat
  | 0, _ => []
  | fuel + 1, n => if n = 0 then [] else n % 10 :: natDigitsRev fuel (n / 10)

/-- The character for a single decimal digit. -/
def digitChar (d : Nat) : Char := Char.ofNat (48 + d)

/-- Decimal string of a natural number, most significant digit first. -/
def natToString (n : Nat) : String :=
  if n = 0 then "0" else ⟨((natDigitsRev n n).reverse.map digitChar)⟩

/-! The object model. The external crate's `Object` is a tagged variant over
the VT object kinds; this embedding keeps the fields the verified code
observes: the numeric id, the type tag, and (for the naming engine's
contextual heuristics) a Key's or Button's key code and a Container's
height. All remaining variants are observationally just their type tag
here. -/

inductive ObjectBody where
  /-- A Key object with its `key_code` field. -/
  | key (keyCode : Nat)
  /-- A Button object with its `key_code` field. -/
  | button (keyCode : Nat)
  /-- A Container object with its `height` field. -/
  | container (height : Nat)
  /-- Any other object kind, carrying only its type tag. -/
  | generic (ty : ObjectType)
  deriving DecidableEq, Repr

/-- An object of the pool: its `ObjectId` value (valid ids are 0..=65534,
65535 is the reserved NULL id) and its body. -/
structure Object where
  id : Nat
  body : ObjectBody
  deriving DecidableEq, Repr

/-- The `object_type()` accessor. -/
def Object.object_type : Object → ObjectType
  | ⟨_, .key _⟩ => .Key
  | ⟨_, .button _⟩ => .Button
  | ⟨_, .container _⟩ => .Container
  | ⟨_, .generic ty⟩ => ty

/-- The object pool: an insertion-ordered collection of objects. Equality is
structural (spec section 4.2: two pools are equal iff every object and
ordering matches), which the derived decidable equality provides. -/
structure ObjectPool where
  objects : List Object
  deriving DecidableEq, Repr

/-- Lookup `object_by_id`: the first object with the given id value. -/
def ObjectPool.object_by_id (pool : ObjectPool) (id : Nat) : Option Object :=
  pool.objects.find? fun o => o.id == id

/-! Per-object metadata, from `object_info.rs`. `Uuid::new_v4()` draws a
fresh random identifier assumed unique; we model the draw as a counter
threaded through the project state, so a freshly drawn identifier equals the
current counter value and every stored identifier is smaller. -/

/-- `ObjectInfo`: the process-lifetime stable identity plus the optional
user-assigned name. -/
structure ObjectInfo where
  unique_id : Nat
  name : Option String
  deriving DecidableEq, Repr

/-- `ObjectInfo::new`: a fresh stable identity, no name. The `object`
argument is unused in the source as well. -/
def ObjectInfo.new (_object : Object) (uuid : Nat) : ObjectInfo :=
  ⟨uuid, none⟩

/-- Debug formatting of an object type tag, as Rust's derived `Debug`
prints the variant name. Used by the default display name. -/
def object_type_debug_name : ObjectType → String
  | .WorkingSet => "WorkingSet"
  | .DataMask => "DataMask"
  | .AlarmMask => "AlarmMask"
  | .Container => "Container"
  | .SoftKeyMask => "SoftKeyMask"
  | .Key => "Key"
  | .Button => "Button"
  | .InputBoolean => "InputBoolean"
  | .InputString => "InputString"
  | .InputNumber => "InputNumber"
  | .InputList => "InputList"
  | .OutputString => "OutputString"
  | .OutputNumber => "OutputNumber"
  | .OutputList => "OutputList"
  | .OutputLine => "OutputLine"
  | .OutputRectangle => "OutputRectangle"
  | .OutputEllipse => "OutputEllipse"
  | .OutputPolygon => "OutputPolygon"
  | .OutputMeter => "OutputMeter"
  | .OutputLinearBarGraph => "OutputLinearBarGraph"
  | .OutputArchedBarGraph => "OutputArchedBarGraph"
  | .PictureGraphic => "PictureGraphic"
  | .NumberVariable => "NumberVariable"
  | .StringVariable => "StringVariable"
  | .FontAttributes => "FontAttributes"
  | .LineAttributes => "LineAttributes"
  | .FillAttributes => "FillAttributes"
  | .InputAttributes => "InputAttributes"
  | .ObjectPointer => "ObjectPointer"
  | .Macro => "Macro"
  | .AuxiliaryFunctionType1 => "AuxiliaryFunctionType1"
  | .AuxiliaryInputType1 => "AuxiliaryInputType1"
  | .AuxiliaryFunctionType2 => "AuxiliaryFunctionType2"
  | .AuxiliaryInputType2 => "AuxiliaryInputType2"
  | .AuxiliaryControlDesignatorType2 => "AuxiliaryControlDesignatorType2"
  | .ColourMap => "ColourMap"
  | .GraphicsContext => "GraphicsContext"
  | .ColourPalette => "ColourPalette"
  | .GraphicData => "GraphicData"
  | .WorkingSetSpecialControls => "WorkingSetSpecialControls"
  | .ScaledGraphic => "ScaledGraphic"
  | .WindowMask => "WindowMask"
  | .KeyGroup => "KeyGroup"
  | .ExtendedInputAttributes => "ExtendedInputAttributes"
  | .ObjectLabelReferenceList => "ObjectLabelReferenceList"
  | .ExternalObjectDefinition => "ExternalObjectDefinition"
  | .ExternalReferenceName => "ExternalReferenceName"
  | .ExternalObjectPointer => "ExternalObjectPointer"
  | .Animation => "Animation"

/-- `ObjectInfo::get_name`: the assigned name, or the deterministic default
built from the id and the debug form of the type tag. -/
def ObjectInfo.get_name (info : ObjectInfo) (object : Object) : String :=
  match info.name with
  | some n => n
  | none => natToString object.id ++ ": " ++ object_type_debug_name object.object_type

/-- `ObjectInfo::set_name`: rejects the empty string (no-op). -/
def ObjectInfo.set_name (info : ObjectInfo) (name : String) : ObjectInfo :=
  if name ≠ "" then { info with name := some name } else info

/-! Finite maps as association lists with overwrite-on-insert, embedding the
lookup/insert/remove behaviour of the source's hash maps (iteration order is
never observed by the verified operations). -/

/-- Lookup of the first binding of a key. -/
def mapLookup {α β : Type} [DecidableEq α] (k : α) : List (α × β) → Option β
  | [] => none
  | e :: rest => if e.1 = k then some e.2 else mapLookup k rest

/-- Removal of every binding of a key. -/
def mapErase {α β : Type} [DecidableEq α] (k : α) (m : List (α × β)) :
    List (α × β) :=
  m.filter fun e => decide (e.1 ≠ k)

/-- Overwriting insert. -/
def mapInsert {α β : Type} [DecidableEq α] (k : α) (v : β) (m : List (α × β)) :
    List (α × β) :=
  (k, v) :: mapErase k m

/-- Name-multiset maps (`HashMap` from names to occurrence counts). -/
def countOf (m : List (String × Nat)) (k : String) : Nat :=
  (mapLookup k m).getD 0

/-- The count bump `*names.entry(name).or_insert(0) += 1` of the source. -/
def incrName (m : List (String × Nat)) (k : String) : List (String × Nat) :=
  mapInsert k (countOf m k + 1) m

/-! The transactional project state, from `editor_project.rs`. The interior
mutability cells (`RefCell`) become plain fields updated functionally; the
fields not touched by any verified operation (`mask_size`, `soft_key_size`,
`renaming_object`) are omitted, as is the `default_object_names` cache,
which only memoizes a deterministic format and is cleared on every pool
change, so it is semantically transparent. -/

def MAX_UNDO_REDO_POOL : Nat := 10

def MAX_UNDO_REDO_SELECTED : Nat := 20

structure EditorProject where
  pool : ObjectPool
  mut_pool : ObjectPool
  undo_pool_history : List ObjectPool
  redo_pool_history : List ObjectPool
  selected_object : Option Nat
  mut_selected_object : Option Nat
  undo_selected_history : List (Option Nat)
  redo_selected_history : List (Option Nat)
  object_info : List (Nat × ObjectInfo)
  next_available_id : Nat
  /-- Source of fresh stable identities (models the `Uuid::new_v4` draws). -/
  next_uuid : Nat
  deriving DecidableEq, Repr

/-- The largest id value in use, 0 for an empty pool (the
`.map(value).max().unwrap_or(0)` scan of the source). -/
def pool_max_id (pool : ObjectPool) : Nat :=
  (pool.objects.map Object.id).foldr max 0

/-- `u16::saturating_add(1)`. -/
def satAdd16 (x : Nat) : Nat :=
  min (x + 1) 65535

/-- The `From<ObjectPool>` conversion: both pools start at the imported
pool, histories and metadata are empty, and the id cursor starts one past
the largest id in use. -/
def EditorProject.from_pool (pool : ObjectPool) : EditorProject where
  pool := pool
  mut_pool := pool
  undo_pool_history := []
  redo_pool_history := []
  selected_object := none
  mut_selected_object := none
  undo_selected_history := []
  redo_selected_history := []
  object_info := []
  next_available_id := satAdd16 (pool_max_id pool)
  next_uuid := 0

/-- Commit, `EditorProject::update_pool`: if the staged pool differs
structurally from the committed pool, clear the redo stack, push the old
committed pool onto the undo stack (dropping the oldest entries once the
stack exceeds `MAX_UNDO_REDO_POOL`), adopt the staged pool, and report true;
otherwise report false and change nothing. -/
def EditorProject.update_pool (p : EditorProject) : EditorProject × Bool :=
  if p.mut_pool ≠ p.pool then
    let hist := p.undo_pool_history ++ [p.pool]
    let hist := if hist.length > MAX_UNDO_REDO_POOL then
        hist.drop (hist.length - MAX_UNDO_REDO_POOL)
      else hist
    ({ p with
        redo_pool_history := []
        undo_pool_history := hist
        pool := p.mut_pool }, true)
  else (p, false)

/-- `EditorProject::undo`: pop the undo stack; if a snapshot is there, push
the current committed pool onto the redo stack and adopt the snapshot as
both committed and staged pool, resynchronizing the id cursor. -/
def EditorProject.undo (p : EditorProject) : EditorProject :=
  match p.undo_pool_history.getLast? with
  | some pool =>
    { p with
        undo_pool_history := p.undo_pool_history.dropLast
        redo_pool_history := p.redo_pool_history ++ [p.pool]
        pool := pool
        mut_pool := pool
        next_available_id := satAdd16 (pool_max_id pool) }
  | none => p

/-- `EditorProject::undo_available`. -/
def EditorProject.undo_available (p : EditorProject) : Bool :=
  !p.undo_pool_history.isEmpty

/-- `EditorProject::redo`: symmetric to `undo`. -/
def EditorProject.redo (p : EditorProject) : EditorProject :=
  match p.redo_pool_history.getLast? with
  | some pool =>
    { p with
        redo_pool_history := p.redo_pool_history.dropLast
        undo_pool_history := p.undo_pool_history ++ [p.pool]
        pool := pool
        mut_pool := pool
        next_available_id := satAdd16 (pool_max_id pool) }
  | none => p

/-- `EditorProject::redo_available`. -/
def EditorProject.redo_available (p : EditorProject) : Bool :=
  !p.redo_pool_history.isEmpty

/-- `EditorProject::update_selected`: commit the staged selection when it
differs, clearing the selection redo stack; the old selection is recorded
in the bounded selection undo stack only when the new selection is not the
NULL selection. -/
def EditorProject.update_selected (p : EditorProject) : EditorProject × Bool :=
  let mut_selected := p.mut_selected_object
  if mut_selected ≠ p.selected_object then
    let hist :=
      if mut_selected ≠ none then
        let hist := p.undo_selected_history ++ [p.selected_object]
        if hist.length > MAX_UNDO_REDO_SELECTED then
          hist.drop (hist.length - MAX_UNDO_REDO_SELECTED)
        else hist
      else p.undo_selected_history
    ({ p with
        redo_selected_history := []
        undo_selected_history := hist
        selected_object := mut_selected }, true)
  else (p, false)

/-- `EditorProject::update_object_id_for_info`: migrate the metadata entry
keyed at the old id, if any, to the new id. -/
def EditorProject.update_object_id_for_info (p : EditorProject)
    (old_id new_id : Nat) : EditorProject :=
  match mapLookup old_id p.object_info with
  | some info =>
    { p with object_info := mapInsert new_id info (mapErase old_id p.object_info) }
  | none => p

/-- `EditorProject::get_object_info`: the entry for the object's id, or a
freshly inserted default `ObjectInfo` when the id is not mapped. Returns
the info together with the updated project state. -/
def EditorProject.get_object_info (p : EditorProject) (object : Object) :
    ObjectInfo × EditorProject :=
  match mapLookup object.id p.object_info with
  | some info => (info, p)
  | none =>
    let info := ObjectInfo.new object p.next_uuid
    (info,
     { p with
        object_info := mapInsert object.id info p.object_info
        next_uuid := p.next_uuid + 1 })

/-! The id allocator, `EditorProject::allocate_object_id`. The source loops
from the cached cursor while the candidate id is taken, advancing with
`u16::saturating_add(1)`; at each probe the candidate is
`ObjectId::new(next).unwrap_or_default()`. Modelled from the spec for the
external id type: `ObjectId::new` succeeds exactly on 0..=65534 (65535 is
the reserved NULL id, spec section 3) and the default `ObjectId` value is
id 0. Because `saturating_add` can never wrap to 0, the source's
wraparound rescue branch (`if *next_id == 0`) is unreachable; it is still
embedded faithfully below. The loop is written with fuel; `none` models the
two ways the source fails to return normally (the rescue branch's
exhaustion path and the loop running forever), neither of which is
observable through a returned id. -/

/-- `ObjectId::new(v).unwrap_or_default()`. -/
def objectIdOrDefault (v : Nat) : Nat :=
  if v ≤ 65534 then v else 0

/-- The rescue scan of the source's wraparound branch: the first id in
1..=65535 whose probe misses, probing through `objectIdOrDefault`. -/
def full_scan (pool : ObjectPool) : Option Nat :=
  (List.range' 1 65535).find? fun id =>
    (pool.object_by_id (objectIdOrDefault id)).isNone

/-- The probe loop: returns the final cursor value at which the loop body
exits, or `none` when the source would not return. -/
def allocate_loop (pool : ObjectPool) : Nat → Nat → Option Nat
  | 0, _ => none
  | fuel + 1, next =>
    if (pool.object_by_id (objectIdOrDefault next)).isSome then
      let next1 := satAdd16 next
      if next1 = 0 then
        match full_scan pool with
        | some id => some id
        | none => none
      else allocate_loop pool fuel next1
    else some next

/-- `EditorProject::allocate_object_id`: run the probe loop from the cached
cursor, convert the final cursor through `unwrap_or_default`, and advance
the cursor. -/
def EditorProject.allocate_object_id (p : EditorProject) :
    Option (Nat × EditorProject) :=
  match allocate_loop p.pool 65537 p.next_available_id with
  | some next =>
    some (objectIdOrDefault next, { p with next_available_id := satAdd16 next })
  | none => none

/-! The naming engine, from `smart_naming.rs` and the naming entry points of
`editor_project.rs`. -/

/-- `get_object_type_name`: the user-friendly label of an object type. -/
def get_object_type_name : ObjectType → String
  | .WorkingSet => "Working Set"
  | .DataMask => "Data Mask"
  | .AlarmMask => "Alarm Screen"
  | .Container => "Container"
  | .SoftKeyMask => "Soft Key Mask"
  | .Key => "Key"
  | .Button => "Button"
  | .InputBoolean => "Checkbox"
  | .InputString => "Text Input"
  | .InputNumber => "Number Input"
  | .InputList => "List Input"
  | .OutputString => "Text Display"
  | .OutputNumber => "Number Display"
  | .OutputList => "List Display"
  | .OutputLine => "Line"
  | .OutputRectangle => "Rectangle"
  | .OutputEllipse => "Ellipse"
  | .OutputPolygon => "Polygon"
  | .OutputMeter => "Meter"
  | .OutputLinearBarGraph => "Linear Bar"
  | .OutputArchedBarGraph => "Arched Bar"
  | .PictureGraphic => "Picture"
  | .NumberVariable => "Number Variable"
  | .StringVariable => "String Variable"
  | .FontAttributes => "Font Style"
  | .LineAttributes => "Line Style"
  | .FillAttributes => "Fill Style"
  | .InputAttributes => "Input Style"
  | .ObjectPointer => "Object Reference"
  | .Macro => "Macro"
  | .AuxiliaryFunctionType1 => "Aux Function v1"
  | .AuxiliaryInputType1 => "Aux Input v1"
  | .AuxiliaryFunctionType2 => "Aux Function v2"
  | .AuxiliaryInputType2 => "Aux Input v2"
  | .AuxiliaryControlDesignatorType2 => "Aux Control v2"
  | .ColourMap => "Colour Map"
  | .GraphicsContext => "Graphics Context"
  | .ColourPalette => "Colour Palette"
  | .GraphicData => "Graphic Data"
  | .WorkingSetSpecialControls => "Special Controls"
  | .ScaledGraphic => "Scaled Graphic"
  | .WindowMask => "Window Mask"
  | .KeyGroup => "Key Group"
  | .ExtendedInputAttributes => "Extended Input Style"
  | .ObjectLabelReferenceList => "Label Reference List"
  | .ExternalObjectDefinition => "External Object Definition"
  | .ExternalReferenceName => "External Reference Name"
  | .ExternalObjectPointer => "External Object Pointer"
  | .Animation => "Animation"

/-- Rust's `str::contains` substring test. -/
def string_contains (s pat : String) : Bool :=
  decide (pat.data <:+: s.data)

/-- `generate_contextual_name`: kind-specific heuristic names, with no
uniqueness check; `none` when no heuristic matches. The pool argument is
unused in the source as well. -/
def generate_contextual_name (object : Object) (_pool : ObjectPool) :
    Option String :=
  match object.body with
  | .key keyCode =>
    if keyCode = 0 then some "ACK/Enter Key"
    else if keyCode = 1 then some "ESC Key"
    else if 2 ≤ keyCode ∧ keyCode ≤ 7 then
      some ("Soft Key " ++ natToString (keyCode - 1))
    else none
  | .button keyCode =>
    if keyCode = 0 then some "OK Button"
    else if keyCode = 1 then some "Cancel Button"
    else none
  | .container height =>
    if height < 100 then some "Header Container"
    else if height > 300 then some "Main Container"
    else none
  | .generic _ => none

/-- The numbered candidate the source formats in its search loop. -/
def candidate_name (base : String) (counter : Nat) : String :=
  base ++ " " ++ natToString counter

/-- The source's `loop` in `generate_smart_default_name`: try numbered
candidates upward until one has no occurrence. Written with fuel; with
`existing.length + 1` fuel the loop provably exits through the freshness
branch (pigeonhole over the finitely many taken names, candidates for
distinct counters being distinct strings), so the fuel-exhausted arm is
unreachable at the fuel the caller passes. -/
def numbered_name_from (base : String) (existing : List (String × Nat)) :
    Nat → Nat → String
  | 0, counter => candidate_name base counter
  | fuel + 1, counter =>
    let candidate := candidate_name base counter
    if countOf existing candidate = 0 then candidate
    else numbered_name_from base existing fuel (counter + 1)

/-- `generate_smart_default_name`: the type-specific base label ("Main
Screen" for the first DataMask, "Data Screen" for later ones, the friendly
type name otherwise), returned directly in the two first-of-type branches,
else disambiguated by the numbered search starting at the type count plus
one. -/
def generate_smart_default_name (object_type : ObjectType) (pool : ObjectPool)
    (existing_names : List (String × Nat)) : String :=
  let same_type_count :=
    (pool.objects.filter fun o => o.object_type == object_type).length
  let base_name : String :=
    match object_type with
    | .DataMask => if same_type_count = 0 then "Main Screen" else "Data Screen"
    | _ => get_object_type_name object_type
  if same_type_count = 0 ∧ string_contains base_name "Screen" = false then
    base_name
  else if countOf existing_names base_name = 0 ∧ same_type_count = 0 then
    base_name
  else
    numbered_name_from base_name existing_names (existing_names.length + 1)
      (same_type_count + 1)

/-- The default name the source caches for an object with no metadata entry
when building the pool-wide name multiset. -/
def default_cache_name (o : Object) : String :=
  "Object " ++ natToString o.id ++ " (" ++ get_object_type_name o.object_type ++ ")"

/-- The name an object contributes to the source's existing-name multiset:
its metadata name via `get_name` when an entry exists, else the cached
default format. -/
def pool_display_name (info : List (Nat × ObjectInfo)) (o : Object) : String :=
  match mapLookup o.id info with
  | some i => i.get_name o
  | none => default_cache_name o

/-- The displayed name in the sense of the specification's uniqueness
contract: the explicit name if set, otherwise the default
`ObjectInfo::get_name` fallback built from the id and type. -/
def displayed_name (info : List (Nat × ObjectInfo)) (o : Object) : String :=
  match mapLookup o.id info with
  | some i => i.get_name o
  | none => natToString o.id ++ ": " ++ object_type_debug_name o.object_type

/-- The existing-name multiset the source builds once per batch: every pool
object's contributed name, counted. -/
def build_existing_names (pool : ObjectPool) (info : List (Nat × ObjectInfo)) :
    List (String × Nat) :=
  pool.objects.foldl (fun m o => incrName m (pool_display_name info o)) []

/-- The `entry(id).or_insert_with(new).set_name(name)` shape both naming
passes use: update the existing entry, or insert a fresh one (drawing a
stable identity) and name it. Returns the map and the identity counter. -/
def set_name_entry (info : List (Nat × ObjectInfo)) (uuid : Nat) (o : Object)
    (name : String) : List (Nat × ObjectInfo) × Nat :=
  match mapLookup o.id info with
  | some i => (mapInsert o.id (i.set_name name) info, uuid)
  | none => (mapInsert o.id ((ObjectInfo.new o uuid).set_name name) info, uuid + 1)

/-- The skip test of the first pass: the object already has a custom name. -/
def has_custom_name (info : List (Nat × ObjectInfo)) (o : Object) : Bool :=
  match mapLookup o.id info with
  | some i => i.name.isSome
  | none => false

/-- First pass of `apply_smart_naming_to_objects`: skip objects that already
have a custom name, give contextual names where the heuristics match, and
collect the objects still needing names, in order. -/
def contextual_pass (pool : ObjectPool) :
    List Object → List (Nat × ObjectInfo) → Nat →
    List (Nat × ObjectInfo) × Nat × List Object
  | [], info, uuid => (info, uuid, [])
  | o :: rest, info, uuid =>
    if has_custom_name info o then
      contextual_pass pool rest info uuid
    else
      match generate_contextual_name o pool with
      | some contextual_name =>
        let s := set_name_entry info uuid o contextual_name
        contextual_pass pool rest s.1 s.2
      | none =>
        let r := contextual_pass pool rest info uuid
        (r.1, r.2.1, o :: r.2.2)

/-- Second pass of `apply_smart_naming_to_objects`: generate a smart default
name for each remaining object against the evolving name multiset, bumping
the count of each assigned name. -/
def naming_pass (pool : ObjectPool) :
    List Object → List (String × Nat) → List (Nat × ObjectInfo) → Nat →
    List (Nat × ObjectInfo) × Nat
  | [], _, info, uuid => (info, uuid)
  | o :: rest, existing, info, uuid =>
    let new_name := generate_smart_default_name o.object_type pool existing
    let existing1 := incrName existing new_name
    let s := set_name_entry info uuid o new_name
    naming_pass pool rest existing1 s.1 s.2

/-- The list of names the second pass assigns, in order (a derived view of
`naming_pass` used to state uniqueness). -/
def naming_pass_names (pool : ObjectPool) :
    List Object → List (String × Nat) → List String
  | [], _ => []
  | o :: rest, existing =>
    let n := generate_smart_default_name o.object_type pool existing
    n :: naming_pass_names pool rest (incrName existing n)

/-- `EditorProject::apply_smart_naming_to_objects`: no-op on an empty batch;
otherwise the contextual pass, an early return when nothing is pending, and
else the batch default-naming pass against the pool-wide name multiset. -/
def EditorProject.apply_smart_naming_to_objects (p : EditorProject)
    (objects : List Object) : EditorProject :=
  if objects.isEmpty then p
  else
    let r := contextual_pass p.pool objects p.object_info p.next_uuid
    let info1 := r.1
    let uuid1 := r.2.1
    let pending := r.2.2
    if pending.isEmpty then { p with object_info := info1, next_uuid := uuid1 }
    else
      let existing := build_existing_names p.pool info1
      let s := naming_pass p.pool pending existing info1 uuid1
      { p with object_info := s.1, next_uuid := s.2 }

/-! Lemmas about the association-list maps and name counts. -/

theorem mapLookup_cons {α β : Type} [DecidableEq α] (k : α) (e : α × β)
    (m : List (α × β)) :
    mapLookup k (e :: m) = if e.1 = k then some e.2 else mapLookup k m := rfl

theorem mapErase_cons {α β : Type} [DecidableEq α] (k : α) (e : α × β)
    (m : List (α × β)) :
    mapErase k (e :: m) =
      if e.1 = k then mapErase k m else e :: mapErase k m := by
  by_cases he : e.1 = k <;> simp [mapErase, List.filter_cons, he]

theorem mapLookup_mapErase_ne {α β : Type} [DecidableEq α] (k k' : α)
    (m : List (α × β)) (h : k' ≠ k) :
    mapLookup k' (mapErase k m) = mapLookup k' m := by
  induction m with
  | nil => rfl
  | cons e rest ih =>
    rw [mapErase_cons]
    by_cases he : e.1 = k
    · rw [if_pos he, ih, mapLookup_cons, if_neg (fun hh => h (hh.symm.trans he))]
    · rw [if_neg he, mapLookup_cons, mapLookup_cons]
      by_cases hk' : e.1 = k'
      · rw [if_pos hk', if_pos hk']
      · rw [if_neg hk', if_neg hk', ih]

theorem mapLookup_mapInsert_self {α β : Type} [DecidableEq α] (k : α) (v : β)
    (m : List (α × β)) : mapLookup k (mapInsert k v m) = some v := by
  simp [mapInsert, mapLookup]

theorem mapLookup_mapInsert_ne {α β : Type} [DecidableEq α] (k k' : α) (v : β)
    (m : List (α × β)) (h : k' ≠ k) :
    mapLookup k' (mapInsert k v m) = mapLookup k' m := by
  rw [mapInsert, mapLookup, if_neg (fun hh => h hh.symm)]
  exact mapLookup_mapErase_ne k k' m h

theorem countOf_incrName_self (m : List (String × Nat)) (k : String) :
    countOf (incrName m k) k = countOf m k + 1 := by
  simp [incrName, countOf, mapLookup_mapInsert_self]

theorem countOf_incrName_ne (m : List (String × Nat)) (k k' : String)
    (h : k' ≠ k) : countOf (incrName m k) k' = countOf m k' := by
  simp [incrName, countOf, mapLookup_mapInsert_ne k k' _ m h]

theorem countOf_le_incrName (m : List (String × Nat)) (s k : String) :
    countOf m k ≤ countOf (incrName m s) k := by
  by_cases h : k = s
  · subst h
    rw [countOf_incrName_self]
    omega
  · rw [countOf_incrName_ne m s k h]

theorem mapLookup_some_mem_keys {α β : Type} [DecidableEq α] (k : α)
    (m : List (α × β)) (v : β) (h : mapLookup k m = some v) :
    k ∈ m.map Prod.fst := by
  induction m with
  | nil => simp [mapLookup] at h
  | cons e rest ih =>
    rw [mapLookup] at h
    by_cases he : e.1 = k
    · simp [← he]
    · rw [if_neg he] at h
      simp [ih h]

theorem countOf_ne_zero_mem_keys (m : List (String × Nat)) (s : String)
    (h : countOf m s ≠ 0) : s ∈ m.map Prod.fst := by
  rw [countOf] at h
  cases hl : mapLookup s m with
  | none => rw [hl] at h; simp at h
  | some v => exact mapLookup_some_mem_keys s m v hl

/-! Injectivity of the decimal rendering, needed to show the numbered-name
search always finds a free candidate. -/

/-- Value of a little-endian digit list. -/
def unDigits : List Nat → Nat
  | [] => 0
  | d :: ds => d + 10 * unDigits ds

theorem unDigits_natDigitsRev : ∀ (fuel n : Nat), n ≤ fuel →
    unDigits (natDigitsRev fuel n) = n := by
  intro fuel
  induction fuel with
  | zero =>
    intro n h
    have : n = 0 := by omega
    subst this
    rfl
  | succ f ih =>
    intro n h
    by_cases h0 : n = 0
    · subst h0
      simp [natDigitsRev, unDigits]
    · rw [natDigitsRev, if_neg h0, unDigits, ih (n / 10) (by omega)]
      exact Nat.mod_add_div n 10

theorem natDigitsRev_lt_ten : ∀ (fuel n : Nat), ∀ d ∈ natDigitsRev fuel n, d < 10 := by
  intro fuel
  induction fuel with
  | zero => intro n d h; simp [natDigitsRev] at h
  | succ f ih =>
    intro n d h
    rw [natDigitsRev] at h
    by_cases h0 : n = 0
    · rw [if_pos h0] at h; simp at h
    · rw [if_neg h0] at h
      rcases List.mem_cons.mp h with rfl | h'
      · omega
      · exact ih (n / 10) d h'

theorem digitChar_toNat (d : Nat) (h : d < 10) : (digitChar d).toNat = 48 + d := by
  interval_cases d <;> rfl

theorem map_digitChar_inj : ∀ (l1 l2 : List Nat), (∀ d ∈ l1, d < 10) →
    (∀ d ∈ l2, d < 10) → l1.map digitChar = l2.map digitChar → l1 = l2 := by
  intro l1
  induction l1 with
  | nil =>
    intro l2 _ _ h
    cases l2 with
    | nil => rfl
    | cons b bs => simp at h
  | cons a as ih =>
    intro l2 h1 h2 h
    cases l2 with
    | nil => simp at h
    | cons b bs =>
      simp only [List.map_cons, List.cons.injEq] at h
      have ha : a < 10 := h1 a (by simp)
      have hb : b < 10 := h2 b (by simp)
      have hab : a = b := by
        have := congrArg Char.toNat h.1
        rw [digitChar_toNat a ha, digitChar_toNat b hb] at this
        omega
      rw [hab, ih bs (fun d hd => h1 d (by simp [hd])) (fun d hd => h2 d (by simp [hd])) h.2]

theorem natToString_inj (n m : Nat) (h : natToString n = natToString m) : n = m := by
  have hdata := congrArg String.data h
  unfold natToString at hdata
  by_cases hn : n = 0 <;> by_cases hm : m = 0
  · omega
  · rw [if_pos hn, if_neg hm] at hdata
    exfalso
    have h1 : [(0 : Nat)].map digitChar = ((natDigitsRev m m).reverse).map digitChar := by
      simpa using hdata
    have h2 : [(0 : Nat)] = (natDigitsRev m m).reverse := by
      refine map_digitChar_inj _ _ (by simp) ?_ h1
      intro d hd
      exact natDigitsRev_lt_ten m m d (List.mem_reverse.mp hd)
    have h3 : natDigitsRev m m = [0] := by
      have h4 := congrArg List.reverse h2
      simp at h4
      exact h4.symm
    have := unDigits_natDigitsRev m m le_rfl
    rw [h3] at this
    simp [unDigits] at this
    omega
  · rw [if_neg hn, if_pos hm] at hdata
    exfalso
    have h1 : ((natDigitsRev n n).reverse).map digitChar = [(0 : Nat)].map digitChar := by
      simpa using hdata
    have h2 : (natDigitsRev n n).reverse = [(0 : Nat)] := by
      refine map_digitChar_inj _ _ ?_ (by simp) h1
      intro d hd
      exact natDigitsRev_lt_ten n n d (List.mem_reverse.mp hd)
    have h3 : natDigitsRev n n = [0] := by
      have h4 := congrArg List.reverse h2
      simpa using h4
    have := unDigits_natDigitsRev n n le_rfl
    rw [h3] at this
    simp [unDigits] at this
    omega
  · rw [if_neg hn, if_neg hm] at hdata
    have h1 : (natDigitsRev n n).reverse = (natDigitsRev m m).reverse := by
      refine map_digitChar_inj _ _ ?_ ?_ hdata
      · intro d hd; exact natDigitsRev_lt_ten n n d (List.mem_reverse.mp hd)
      · intro d hd; exact natDigitsRev_lt_ten m m d (List.mem_reverse.mp hd)
    have h2 : natDigitsRev n n = natDigitsRev m m := by
      have := congrArg List.reverse h1
      simpa using this
    have hun := unDigits_natDigitsRev n n le_rfl
    rw [h2, unDigits_natDigitsRev m m le_rfl] at hun
    omega

theorem candidate_name_inj (base : String) (k1 k2 : Nat)
    (h : candidate_name base k1 = candidate_name base k2) : k1 = k2 := by
  unfold candidate_name at h
  have hdata := congrArg String.data h
  simp only [String.data_append, List.append_assoc] at hdata
  have h1 := List.append_cancel_left hdata
  have h2 := List.append_cancel_left h1
  exact natToString_inj k1 k2 (by ext1; exact h2)

theorem candidate_name_ne_empty (base : String) (k : Nat) :
    candidate_name base k ≠ "" := by
  intro h
  have hdata := congrArg String.data h
  unfold candidate_name at hdata
  have hempty : ("" : String).data = [] := rfl
  simp only [String.data_append, List.append_assoc, hempty] at hdata
  simp at hdata

/-! Staging and commit sequences, used to state the history-bound claim. -/

/-- Stage a pool edit: replace the working copy (the editor mutating the
`mut_pool` cell). -/
def stage_pool (p : EditorProject) (q : ObjectPool) : EditorProject :=
  { p with mut_pool := q }

/-- Stage and commit each pool of a list in order. -/
def commit_seq (p : EditorProject) : List ObjectPool → EditorProject
  | [] => p
  | q :: qs => commit_seq ((stage_pool p q).update_pool).1 qs

/-! Sample states used by the witnesses. -/

def sample_pool : ObjectPool := ⟨[⟨1, .generic .DataMask⟩]⟩

def sample_project : EditorProject := EditorProject.from_pool sample_pool

/-- A project that has committed one staged edit, so its undo stack is
non-empty and its redo stack is empty. -/
def committed_once : EditorProject :=
  ((stage_pool (EditorProject.from_pool ⟨[]⟩) sample_pool).update_pool).1

/-! ### C1 -/

/-- C1: commit is idempotent and change-detecting. When the staged pool
equals the committed pool structurally, `update_pool` returns false and
leaves the whole project state unchanged; and whatever the starting state,
a second `update_pool` with no staged edit in between is a no-op returning
false, so history changes at most once. -/
theorem update_pool_idempotent (p : EditorProject) :
    (p.mut_pool = p.pool → p.update_pool = (p, false)) ∧
    ((p.update_pool).1.update_pool = ((p.update_pool).1, false)) := by
  constructor
  · intro h
    simp [EditorProject.update_pool, h]
  · by_cases h : p.mut_pool = p.pool
    · simp [EditorProject.update_pool, h]
    · simp [EditorProject.update_pool, h]

theorem update_pool_idempotent_witness :
    sample_project.update_pool = (sample_project, false) :=
  (update_pool_idempotent sample_project).1 rfl

/-! ### C2 -/

/-- C2: the undo/redo inverse law. When the undo stack is non-empty,
`undo` followed by `redo` restores the pre-undo committed pool exactly; and
`redo` with an empty redo stack changes nothing at all. -/
theorem undo_redo_inverse (p q : EditorProject) :
    (p.undo_pool_history ≠ [] → ((p.undo).redo).pool = p.pool) ∧
    (q.redo_pool_history = [] → q.redo = q) := by
  constructor
  · intro h
    cases e : p.undo_pool_history.getLast? with
    | none => exact absurd (List.getLast?_eq_none_iff.mp e) h
    | some x =>
      simp [EditorProject.undo, e, EditorProject.redo, List.getLast?_concat]
  · intro h
    simp [EditorProject.redo, h]

theorem undo_redo_inverse_witness :
    ((committed_once.undo).redo).pool = committed_once.pool ∧
    (EditorProject.from_pool sample_pool).redo = EditorProject.from_pool sample_pool :=
  ⟨(undo_redo_inverse committed_once committed_once).1 (by decide),
   (undo_redo_inverse committed_once (EditorProject.from_pool sample_pool)).2 rfl⟩

/-! ### C3 -/

/-- A successful commit pushes onto the undo stack and truncates it to the
bound; its length becomes `min (old + 1) 10` and the committed pool becomes
the staged pool. -/
theorem update_pool_success (p : EditorProject) (h : p.mut_pool ≠ p.pool) :
    (p.update_pool).1.undo_pool_history.length =
      min (p.undo_pool_history.length + 1) MAX_UNDO_REDO_POOL ∧
    (p.update_pool).1.pool = p.mut_pool ∧ (p.update_pool).2 = true := by
  refine ⟨?_, ?_, ?_⟩
  · simp only [EditorProject.update_pool, if_pos h]
    by_cases hl : (p.undo_pool_history ++ [p.pool]).length > MAX_UNDO_REDO_POOL
    · rw [if_pos hl]
      simp only [List.length_drop, List.length_append, List.length_cons,
        List.length_nil, MAX_UNDO_REDO_POOL] at *
      omega
    · rw [if_neg hl]
      simp only [List.length_append, List.length_cons, List.length_nil,
        MAX_UNDO_REDO_POOL] at *
      omega
  · simp [EditorProject.update_pool, if_pos h]
  · simp [EditorProject.update_pool, if_pos h]

/-- The undo-stack length after a non-empty sequence of successful commits:
`min (initial + number of commits) 10`. The chain hypothesis says each
staged pool differs from the pool committed just before it, which is what
makes every commit succeed. -/
theorem commit_seq_len : ∀ (qs : List ObjectPool) (p : EditorProject),
    qs ≠ [] → List.Chain' (· ≠ ·) (p.pool :: qs) →
    (commit_seq p qs).undo_pool_history.length =
      min (p.undo_pool_history.length + qs.length) MAX_UNDO_REDO_POOL := by
  intro qs
  induction qs with
  | nil => intro p h _; exact absurd rfl h
  | cons q qs ih =>
    intro p _ hchain
    rw [List.chain'_cons] at hchain
    obtain ⟨hne, hchain⟩ := hchain
    have hstage : (stage_pool p q).mut_pool ≠ (stage_pool p q).pool := by
      simpa [stage_pool] using fun h' => hne h'.symm
    obtain ⟨hlen, hpool, _⟩ := update_pool_success (stage_pool p q) hstage
    cases qs with
    | nil =>
      show (((stage_pool p q).update_pool).1).undo_pool_history.length = _
      rw [hlen]
      simp [stage_pool]
    | cons q' qs' =>
      have hchain' :
          List.Chain' (· ≠ ·) ((((stage_pool p q).update_pool).1).pool :: q' :: qs') := by
        rw [hpool]
        simpa [stage_pool] using hchain
      have ih' := ih (((stage_pool p q).update_pool).1) (by simp) hchain'
      show (commit_seq (((stage_pool p q).update_pool).1) (q' :: qs')).undo_pool_history.length = _
      rw [ih', hlen]
      simp only [stage_pool, List.length_cons, MAX_UNDO_REDO_POOL]
      omega

/-- `undo` shortens the undo stack by one (and leaves an empty stack
empty). -/
theorem undo_len (p : EditorProject) :
    (p.undo).undo_pool_history.length = p.undo_pool_history.length - 1 := by
  cases e : p.undo_pool_history.getLast? with
  | none =>
    simp [EditorProject.undo, e, List.getLast?_eq_none_iff.mp e]
  | some x =>
    simp [EditorProject.undo, e, List.length_dropLast]

/-- Iterated undo shortens the undo stack accordingly. -/
theorem undo_iterate_len (k : Nat) (p : EditorProject) :
    (EditorProject.undo^[k] p).undo_pool_history.length =
      p.undo_pool_history.length - k := by
  induction k generalizing p with
  | zero => simp
  | succ n ih =>
    rw [Function.iterate_succ_apply', undo_len, ih]
    omega

/-- `undo_available` is exactly non-emptiness of the undo stack. -/
theorem undo_available_iff (p : EditorProject) :
    p.undo_available = decide (0 < p.undo_pool_history.length) := by
  cases h : p.undo_pool_history <;> simp [EditorProject.undo_available, h]

/-- C3: the pool history bound. After more than ten distinct successful
commits the undo stack holds exactly ten snapshots, so `undo_available`
stays true for the first ten undos and becomes false after exactly ten. -/
theorem pool_history_bound (p : EditorProject) (qs : List ObjectPool)
    (hlen : qs.length > 10) (hchain : List.Chain' (· ≠ ·) (p.pool :: qs)) :
    (commit_seq p qs).undo_pool_history.length = 10 ∧
    ∀ k : Nat, (EditorProject.undo^[k] (commit_seq p qs)).undo_available =
      decide (k < 10) := by
  have hne : qs ≠ [] := by
    intro h; rw [h] at hlen; simp at hlen
  have hl := commit_seq_len qs p hne hchain
  rw [MAX_UNDO_REDO_POOL] at hl
  have h10 : (commit_seq p qs).undo_pool_history.length = 10 := by omega
  refine ⟨h10, fun k => ?_⟩
  rw [undo_available_iff, undo_iterate_len, h10]
  exact decide_eq_decide.mpr (by omega)

def eleven_pools : List ObjectPool :=
  [⟨[⟨1, .generic .DataMask⟩]⟩, ⟨[⟨2, .generic .DataMask⟩]⟩,
   ⟨[⟨3, .generic .DataMask⟩]⟩, ⟨[⟨4, .generic .DataMask⟩]⟩,
   ⟨[⟨5, .generic .DataMask⟩]⟩, ⟨[⟨6, .generic .DataMask⟩]⟩,
   ⟨[⟨7, .generic .DataMask⟩]⟩, ⟨[⟨8, .generic .DataMask⟩]⟩,
   ⟨[⟨9, .generic .DataMask⟩]⟩, ⟨[⟨10, .generic .DataMask⟩]⟩,
   ⟨[⟨11, .generic .DataMask⟩]⟩]

theorem pool_history_bound_witness :
    (commit_seq (EditorProject.from_pool ⟨[]⟩) eleven_pools).undo_pool_history.length = 10 ∧
    (EditorProject.undo^[10]
        (commit_seq (EditorProject.from_pool ⟨[]⟩) eleven_pools)).undo_available =
      decide ((10 : Nat) < 10) :=
  ⟨(pool_history_bound (EditorProject.from_pool ⟨[]⟩) eleven_pools (by decide)
      (by simp [eleven_pools, EditorProject.from_pool, List.chain'_cons,
        List.chain'_singleton])).1,
   (pool_history_bound (EditorProject.from_pool ⟨[]⟩) eleven_pools (by decide)
      (by simp [eleven_pools, EditorProject.from_pool, List.chain'_cons,
        List.chain'_singleton])).2 10⟩

/-! ### C4 -/

set_option maxRecDepth 10000 in
set_option maxHeartbeats 4000000 in
/-- C4: the relationship schema is version-monotonic. For every object type
and every pair of ordered VT versions, the allowed child set of the lower
version is contained in that of the higher version. -/
theorem get_allowed_child_refs_monotone :
    ∀ (t : ObjectType) (v1 v2 : VtVersion), v1 ≤ v2 →
      ∀ c ∈ get_allowed_child_refs t v1, c ∈ get_allowed_child_refs t v2 := by
  decide

theorem get_allowed_child_refs_monotone_witness :
    ObjectType.WorkingSet ∈ get_allowed_child_refs .DataMask .Version4 :=
  get_allowed_child_refs_monotone .DataMask .Version3 .Version4 (by decide)
    .WorkingSet (by decide)

/-! ### C7 -/

/-- C7: selection-commit asymmetry. When the staged selection differs from
the committed one, `update_selected` reports true, clears the selection
redo stack and commits the staged selection; the old selection is pushed
onto the selection undo stack (kept at no more than twenty entries, oldest
evicted) exactly when the new selection is non-null, while a change to the
null selection leaves the selection undo stack untouched. -/
theorem update_selected_commit_asymmetry (p : EditorProject)
    (h : p.mut_selected_object ≠ p.selected_object) :
    (p.update_selected).2 = true ∧
    (p.update_selected).1.redo_selected_history = [] ∧
    (p.update_selected).1.selected_object = p.mut_selected_object ∧
    (p.mut_selected_object = none →
      (p.update_selected).1.undo_selected_history = p.undo_selected_history) ∧
    (p.mut_selected_object ≠ none →
      (p.update_selected).1.undo_selected_history =
        (p.undo_selected_history ++ [p.selected_object]).drop
          ((p.undo_selected_history ++ [p.selected_object]).length - 20) ∧
      (p.update_selected).1.undo_selected_history.length ≤ 20 ∧
      ((p.update_selected).1.undo_selected_history).getLast? =
        some p.selected_object) := by
  have hhist : (p.update_selected).1.undo_selected_history =
      (if p.mut_selected_object ≠ none then
        let hist := p.undo_selected_history ++ [p.selected_object]
        if hist.length > MAX_UNDO_REDO_SELECTED then
          hist.drop (hist.length - MAX_UNDO_REDO_SELECTED)
        else hist
      else p.undo_selected_history) := by
    simp only [EditorProject.update_selected, if_pos h]
  refine ⟨?_, ?_, ?_, ?_, ?_⟩
  · simp only [EditorProject.update_selected, if_pos h]
  · simp only [EditorProject.update_selected, if_pos h]
  · simp only [EditorProject.update_selected, if_pos h]
  · intro hnull
    rw [hhist, if_neg (by simp [hnull])]
  · intro hnn
    rw [hhist, if_pos hnn]
    set l := p.undo_selected_history ++ [p.selected_object] with hl
    have hlen : l.length = p.undo_selected_history.length + 1 := by
      rw [hl]; simp
    have hdrop20 : l.length - MAX_UNDO_REDO_SELECTED ≤
        p.undo_selected_history.length := by
      rw [hlen, MAX_UNDO_REDO_SELECTED]; omega
    have hsplit : l.drop (l.length - MAX_UNDO_REDO_SELECTED) =
        (p.undo_selected_history.drop (l.length - MAX_UNDO_REDO_SELECTED)) ++
          [p.selected_object] := by
      rw [hl]
      exact List.drop_append_of_le_length hdrop20
    by_cases hgt : l.length > MAX_UNDO_REDO_SELECTED
    · rw [if_pos hgt]
      refine ⟨by rw [MAX_UNDO_REDO_SELECTED], ?_, ?_⟩
      · rw [List.length_drop, MAX_UNDO_REDO_SELECTED]
        omega
      · rw [hsplit, List.getLast?_concat]
    · rw [if_neg hgt]
      simp only [MAX_UNDO_REDO_SELECTED] at hgt
      refine ⟨?_, ?_, ?_⟩
      · rw [Nat.sub_eq_zero_of_le (by omega), List.drop_zero]
      · omega
      · rw [hl, List.getLast?_concat]

def selection_sample : EditorProject :=
  { EditorProject.from_pool ⟨[]⟩ with mut_selected_object := some 5 }

theorem update_selected_commit_asymmetry_witness :
    (selection_sample.update_selected).2 = true ∧
    (selection_sample.update_selected).1.selected_object = some 5 :=
  ⟨(update_selected_commit_asymmetry selection_sample (by decide)).1,
   (update_selected_commit_asymmetry selection_sample (by decide)).2.2.1⟩

/-! ### C8 -/

/-- C8: object metadata survives id renumbering. A metadata entry keyed at
the old id is reachable at the new id after `update_object_id_for_info`,
with the same stable identity and name, and `get_object_info` for an
object now carrying the new id returns that original entry rather than a
freshly generated default. -/
theorem metadata_survives_renumber (p : EditorProject) (X Y : Nat)
    (info : ObjectInfo) (h : mapLookup X p.object_info = some info)
    (o : Object) (ho : o.id = Y) :
    mapLookup Y (p.update_object_id_for_info X Y).object_info = some info ∧
    ((p.update_object_id_for_info X Y).get_object_info o).1 = info ∧
    ((p.update_object_id_for_info X Y).get_object_info o).2 =
      p.update_object_id_for_info X Y := by
  have hmap :
      mapLookup Y (p.update_object_id_for_info X Y).object_info = some info := by
    simp [EditorProject.update_object_id_for_info, h, mapInsert, mapLookup]
  refine ⟨hmap, ?_, ?_⟩ <;> simp [EditorProject.get_object_info, ho, hmap]

def renumber_sample : EditorProject :=
  { EditorProject.from_pool ⟨[]⟩ with
      object_info := [(10, ⟨0, some "Flow Meter"⟩)]
      next_uuid := 1 }

theorem metadata_survives_renumber_witness :
    ((renumber_sample.update_object_id_for_info 10 20).get_object_info
        ⟨20, .generic .OutputMeter⟩).1 = ⟨0, some "Flow Meter"⟩ :=
  (metadata_survives_renumber renumber_sample 10 20 ⟨0, some "Flow Meter"⟩ rfl
    ⟨20, .generic .OutputMeter⟩ rfl).2.1

/-! ### C10 -/

/-- C10: `get_object_info` is a mutating read with an idempotent result.
On an unmapped id the call returns (and inserts) a nameless entry whose
stable identity is the freshly drawn one - distinct from every identity
already stored, given that stored identities are earlier draws - and any
subsequent call with the same id returns that same entry and leaves the
state unchanged. -/
theorem get_object_info_fresh_idempotent (p : EditorProject) (o : Object)
    (h : mapLookup o.id p.object_info = none) :
    ((p.get_object_info o).1.name = none ∧
     (p.get_object_info o).1.unique_id = p.next_uuid) ∧
    (((p.get_object_info o).2.get_object_info o).1 = (p.get_object_info o).1 ∧
     ((p.get_object_info o).2.get_object_info o).2 = (p.get_object_info o).2) ∧
    ((∀ k i, mapLookup k p.object_info = some i → i.unique_id < p.next_uuid) →
      ∀ k i, mapLookup k p.object_info = some i →
        i.unique_id ≠ (p.get_object_info o).1.unique_id) := by
  refine ⟨⟨?_, ?_⟩, ⟨?_, ?_⟩, ?_⟩
  · simp [EditorProject.get_object_info, h, ObjectInfo.new]
  · simp [EditorProject.get_object_info, h, ObjectInfo.new]
  · simp [EditorProject.get_object_info, h, ObjectInfo.new, mapInsert, mapLookup]
  · simp [EditorProject.get_object_info, h, ObjectInfo.new, mapInsert, mapLookup]
  · intro hinv k i hk
    have := hinv k i hk
    simp [EditorProject.get_object_info, h, ObjectInfo.new]
    omega

def metadata_sample : EditorProject :=
  { EditorProject.from_pool ⟨[]⟩ with
      object_info := [(1, ⟨0, none⟩)]
      next_uuid := 1 }

theorem get_object_info_fresh_idempotent_witness :
    (metadata_sample.get_object_info ⟨2, .generic .Container⟩).1.unique_id = 1 ∧
    ((metadata_sample.get_object_info ⟨2, .generic .Container⟩).2.get_object_info
        ⟨2, .generic .Container⟩).1 =
      (metadata_sample.get_object_info ⟨2, .generic .Container⟩).1 :=
  ⟨(get_object_info_fresh_idempotent metadata_sample ⟨2, .generic .Container⟩
      rfl).1.2,
   (get_object_info_fresh_idempotent metadata_sample ⟨2, .generic .Container⟩
      rfl).2.1.1⟩

/-! ### C5 -/

/-- When the probe loop returns nothing, the allocator returns nothing. -/
theorem allocate_object_id_none (p : EditorProject)
    (h : allocate_loop p.pool 65537 p.next_available_id = none) :
    p.allocate_object_id = none := by
  unfold EditorProject.allocate_object_id
  rw [h]

/-- With the reserved id 0 occupied, a cursor stuck at 65535 probes id 0
forever: `saturating_add` keeps the cursor at 65535 and the wraparound
rescue branch never fires. -/
theorem allocate_loop_stuck (pool : ObjectPool)
    (h : (pool.object_by_id 0).isSome = true) :
    ∀ fuel, allocate_loop pool fuel 65535 = none := by
  intro fuel
  induction fuel with
  | zero => rfl
  | succ n ih => simp [allocate_loop, objectIdOrDefault, satAdd16, h, ih]

/-- C5 fails on the code: at the id-space boundary the allocator leaves the
claimed contract. For a pool holding only id 65534 (so the id space is far
from full and the imported cursor is 65535), `allocate_object_id` returns
id 0 - the fallback default `ObjectId`, outside the claimed range
(0, 65534] - and leaves the cursor at 65535; and once id 0 is also
occupied the probe loop never returns at all, because `saturating_add`
never wraps to 0, so the source's wraparound rescue scan is unreachable. -/
theorem allocate_object_id_boundary_bug :
    ((EditorProject.from_pool ⟨[⟨65534, .generic .DataMask⟩]⟩).allocate_object_id =
      some (0, { EditorProject.from_pool ⟨[⟨65534, .generic .DataMask⟩]⟩ with
                   next_available_id := 65535 })) ∧
    (¬ ∃ r, (EditorProject.from_pool
        ⟨[⟨65534, .generic .DataMask⟩]⟩).allocate_object_id = some r ∧
        0 < r.1 ∧ r.1 ≤ 65534) ∧
    ({ EditorProject.from_pool
          ⟨[⟨0, .generic .DataMask⟩, ⟨65534, .generic .DataMask⟩]⟩ with
        next_available_id := 65535 } : EditorProject).allocate_object_id = none := by
  have h1 : (EditorProject.from_pool
      ⟨[⟨65534, .generic .DataMask⟩]⟩).allocate_object_id =
      some (0, { EditorProject.from_pool ⟨[⟨65534, .generic .DataMask⟩]⟩ with
        next_available_id := 65535 }) := by decide
  refine ⟨h1, ?_, ?_⟩
  · rintro ⟨r, hr, h0, _⟩
    rw [h1] at hr
    have hr' := Option.some_injective _ hr
    rw [← hr'] at h0
    simp at h0
  · exact allocate_object_id_none _ (allocate_loop_stuck _ (by decide) 65537)

/-! ### C6 and C9 - the naming engine

The smart-default search loop always lands on a name with no occurrence in
the existing multiset: candidates for distinct counters are distinct
strings, and only finitely many names are taken (pigeonhole). -/

theorem exists_fresh_candidate (base : String) (m : List (String × Nat)) (c : Nat) :
    ∃ k, k ≤ m.length ∧ countOf m (candidate_name base (c + k)) = 0 := by
  by_contra hcon
  push_neg at hcon
  have hmem : ∀ k ≤ m.length, candidate_name base (c + k) ∈ m.map Prod.fst :=
    fun k hk => countOf_ne_zero_mem_keys m _ (hcon k hk)
  have hnodup : ((List.range (m.length + 1)).map
      (fun k => candidate_name base (c + k))).Nodup := by
    refine (List.nodup_range _).map_on ?_
    intro x _ y _ hxy
    have := candidate_name_inj base (c + x) (c + y) hxy
    omega
  have hsubset : ((List.range (m.length + 1)).map
      (fun k => candidate_name base (c + k))).toFinset ⊆
      (m.map Prod.fst).toFinset := by
    intro s hs
    rw [List.mem_toFinset] at hs ⊢
    obtain ⟨k, hk, rfl⟩ := List.mem_map.mp hs
    exact hmem k (by have := List.mem_range.mp hk; omega)
  have h1 := List.toFinset_card_of_nodup hnodup
  have h2 := Finset.card_le_card hsubset
  have h3 := (m.map Prod.fst).toFinset_card_le
  rw [h1] at h2
  simp only [List.length_map, List.length_range] at h2 h3
  omega

theorem numbered_name_from_is_candidate (base : String) (m : List (String × Nat)) :
    ∀ (f c : Nat), ∃ k, numbered_name_from base m f c = candidate_name base k := by
  intro f
  induction f with
  | zero => intro c; exact ⟨c, rfl⟩
  | succ f ih =>
    intro c
    by_cases h0 : countOf m (candidate_name base c) = 0
    · exact ⟨c, by rw [numbered_name_from]; simp [h0]⟩
    · obtain ⟨k, hk⟩ := ih (c + 1)
      exact ⟨k, by rw [numbered_name_from]; simp [h0, hk]⟩

theorem numbered_name_from_fresh (base : String) (m : List (String × Nat)) :
    ∀ (f c : Nat), (∃ k, k < f ∧ countOf m (candidate_name base (c + k)) = 0) →
    countOf m (numbered_name_from base m f c) = 0 := by
  intro f
  induction f with
  | zero =>
    intro c hex
    obtain ⟨k, hk, _⟩ := hex
    omega
  | succ f ih =>
    intro c hex
    have hunfold : numbered_name_from base m (f + 1) c =
        (if countOf m (candidate_name base c) = 0 then candidate_name base c
         else numbered_name_from base m f (c + 1)) := by
      rw [numbered_name_from]
    rw [hunfold]
    by_cases h0 : countOf m (candidate_name base c) = 0
    · rw [if_pos h0]; exact h0
    · rw [if_neg h0]
      apply ih
      obtain ⟨k, hk, hc⟩ := hex
      cases k with
      | zero => simp only [Nat.add_zero] at hc; exact absurd hc h0
      | succ j =>
        exact ⟨j, by omega,
          by rw [show c + 1 + j = c + (j + 1) from by omega]; exact hc⟩

/-- The name generated for a type with at least one instance in the pool is
fresh with respect to the existing-name multiset and is non-empty (the two
first-of-type early returns cannot fire, so the search loop runs and its
result has no occurrence). -/
theorem generate_smart_default_name_spec (T : ObjectType) (pool : ObjectPool)
    (m : List (String × Nat)) (hT : ∃ o ∈ pool.objects, o.object_type = T) :
    countOf m (generate_smart_default_name T pool m) = 0 ∧
    generate_smart_default_name T pool m ≠ "" := by
  obtain ⟨o, ho, hot⟩ := hT
  have hstc : ¬ (pool.objects.filter fun x => x.object_type == T).length = 0 := by
    intro hlen
    rw [List.length_eq_zero] at hlen
    have hmem : o ∈ pool.objects.filter fun x => x.object_type == T := by
      rw [List.mem_filter]
      exact ⟨ho, by simp [hot]⟩
    rw [hlen] at hmem
    simp at hmem
  simp only [generate_smart_default_name]
  rw [if_neg (fun hand => hstc hand.1), if_neg (fun hand => hstc hand.2)]
  constructor
  · apply numbered_name_from_fresh
    obtain ⟨k, hk, hc⟩ := exists_fresh_candidate _ m _
    exact ⟨k, by omega, hc⟩
  · obtain ⟨k, hk⟩ := numbered_name_from_is_candidate _ m (m.length + 1) _
    rw [hk]
    exact candidate_name_ne_empty _ k

/-! Entry-update lemmas for the shared `entry(...).or_insert_with(...)`
then `set_name` shape. -/

theorem set_name_entry_lookup_self (info : List (Nat × ObjectInfo)) (uuid : Nat)
    (o : Object) (name : String) (hn : name ≠ "") :
    ∃ i, mapLookup o.id (set_name_entry info uuid o name).1 = some i ∧
      i.name = some name := by
  unfold set_name_entry
  cases hl : mapLookup o.id info with
  | some i =>
    refine ⟨i.set_name name, ?_, ?_⟩
    · simp only [hl, mapLookup_mapInsert_self]
    · simp [ObjectInfo.set_name, hn]
  | none =>
    refine ⟨(ObjectInfo.new o uuid).set_name name, ?_, ?_⟩
    · simp only [hl, mapLookup_mapInsert_self]
    · simp [ObjectInfo.set_name, hn]

theorem set_name_entry_lookup_ne (info : List (Nat × ObjectInfo)) (uuid : Nat)
    (o : Object) (name : String) (id : Nat) (h : id ≠ o.id) :
    mapLookup id (set_name_entry info uuid o name).1 = mapLookup id info := by
  unfold set_name_entry
  cases hl : mapLookup o.id info with
  | some i =>
    simp only [hl]
    exact mapLookup_mapInsert_ne _ _ _ _ h
  | none =>
    simp only [hl]
    exact mapLookup_mapInsert_ne _ _ _ _ h

/-! Lemmas about the second (default-naming) pass. -/

theorem naming_pass_lookup_not_mem (pool : ObjectPool) :
    ∀ (pending : List Object) (existing : List (String × Nat))
      (info : List (Nat × ObjectInfo)) (uuid : Nat) (id : Nat),
    id ∉ pending.map Object.id →
    mapLookup id (naming_pass pool pending existing info uuid).1 =
      mapLookup id info := by
  intro pending
  induction pending with
  | nil => intro existing info uuid id _; rfl
  | cons o rest ih =>
    intro existing info uuid id hid
    simp only [List.map_cons, List.mem_cons, not_or] at hid
    simp only [naming_pass]
    rw [ih _ _ _ id hid.2]
    exact set_name_entry_lookup_ne _ _ _ _ id hid.1

/-- The inductive specification of the default-naming pass: every pending
object (distinct ids, types instantiated in the pool) ends with an entry
whose assigned name has no occurrence in the entry multiset, and distinct
pending objects get distinct names. -/
theorem naming_pass_spec (pool : ObjectPool) :
    ∀ (pending : List Object) (existing : List (String × Nat))
      (info : List (Nat × ObjectInfo)) (uuid : Nat),
    (pending.map Object.id).Nodup →
    (∀ x ∈ pending, ∃ w ∈ pool.objects, w.object_type = x.object_type) →
    ∀ o ∈ pending, ∃ i n,
      mapLookup o.id (naming_pass pool pending existing info uuid).1 = some i ∧
      i.name = some n ∧ countOf existing n = 0 ∧
      ∀ o' ∈ pending, o'.id ≠ o.id →
        ∀ i' n',
          mapLookup o'.id (naming_pass pool pending existing info uuid).1 = some i' →
          i'.name = some n' → n' ≠ n := by
  intro pending
  induction pending with
  | nil => intro existing info uuid _ _ o ho; simp at ho
  | cons ohead rest ih =>
    intro existing info uuid hnodup htype o ho
    have hnodup' : (rest.map Object.id).Nodup := by
      simp only [List.map_cons, List.nodup_cons] at hnodup
      exact hnodup.2
    have hhead_notin : ohead.id ∉ rest.map Object.id := by
      simp only [List.map_cons, List.nodup_cons] at hnodup
      exact hnodup.1
    have htype' : ∀ x ∈ rest, ∃ w ∈ pool.objects, w.object_type = x.object_type :=
      fun x hx => htype x (List.mem_cons_of_mem _ hx)
    have hgen := generate_smart_default_name_spec ohead.object_type pool existing
      (htype ohead (List.mem_cons_self _ _))
    have hunfold : (naming_pass pool (ohead :: rest) existing info uuid).1 =
        (naming_pass pool rest
          (incrName existing (generate_smart_default_name ohead.object_type pool existing))
          (set_name_entry info uuid ohead
            (generate_smart_default_name ohead.object_type pool existing)).1
          (set_name_entry info uuid ohead
            (generate_smart_default_name ohead.object_type pool existing)).2).1 := rfl
    set n0 := generate_smart_default_name ohead.object_type pool existing with hn0
    obtain ⟨ihead, hihead, hiname⟩ := set_name_entry_lookup_self info uuid ohead n0 hgen.2
    have hhead_final :
        mapLookup ohead.id (naming_pass pool (ohead :: rest) existing info uuid).1 =
          some ihead := by
      rw [hunfold, naming_pass_lookup_not_mem pool rest _ _ _ _ hhead_notin, hihead]
    have hbump : countOf (incrName existing n0) n0 = countOf existing n0 + 1 :=
      countOf_incrName_self existing n0
    rcases List.mem_cons.mp ho with rfl | horest
    · refine ⟨ihead, n0, hhead_final, hiname, hgen.1, ?_⟩
      intro o' ho' hne i' n' hl' hn'
      have ho'rest : o' ∈ rest := by
        rcases List.mem_cons.mp ho' with rfl | h'
        · exact absurd rfl hne
        · exact h'
      obtain ⟨i2, n2, hl2, hname2, hcount2, _⟩ :=
        ih (incrName existing n0) (set_name_entry info uuid o n0).1
          (set_name_entry info uuid o n0).2 hnodup' htype' o' ho'rest
      rw [hunfold] at hl'
      have hii : i2 = i' := Option.some.inj (hl2.symm.trans hl')
      rw [← hii] at hn'
      have hnn : n2 = n' := Option.some.inj (hname2.symm.trans hn')
      intro heq
      rw [← hnn] at heq
      rw [heq] at hcount2
      omega
    · obtain ⟨i2, n2, hl2, hname2, hcount2, hpair2⟩ :=
        ih (incrName existing n0) (set_name_entry info uuid ohead n0).1
          (set_name_entry info uuid ohead n0).2 hnodup' htype' o horest
      refine ⟨i2, n2, by rw [hunfold]; exact hl2, hname2, ?_, ?_⟩
      · have := countOf_le_incrName existing n0 n2
        omega
      · intro o' ho' hne i' n' hl' hn'
        rcases List.mem_cons.mp ho' with rfl | ho'rest
        · rw [hhead_final] at hl'
          have hii : ihead = i' := Option.some.inj hl'
          rw [← hii] at hn'
          have hnn : n0 = n' := Option.some.inj (hiname.symm.trans hn')
          rw [← hnn]
          intro heq
          rw [← heq] at hcount2
          omega
        · exact hpair2 o' ho'rest hne i' n'
            (by rw [hunfold] at hl'; exact hl') hn'

/-! Lemmas about the first (contextual) pass. -/

theorem contextual_pass_cons_skip (pool : ObjectPool) (o : Object)
    (rest : List Object) (info : List (Nat × ObjectInfo)) (uuid : Nat)
    (h : has_custom_name info o = true) :
    contextual_pass pool (o :: rest) info uuid =
      contextual_pass pool rest info uuid := by
  simp [contextual_pass, h]

theorem contextual_pass_cons_ctx (pool : ObjectPool) (o : Object)
    (rest : List Object) (info : List (Nat × ObjectInfo)) (uuid : Nat)
    (cname : String) (h : has_custom_name info o = false)
    (hctx : generate_contextual_name o pool = some cname) :
    contextual_pass pool (o :: rest) info uuid =
      contextual_pass pool rest (set_name_entry info uuid o cname).1
        (set_name_entry info uuid o cname).2 := by
  simp [contextual_pass, h, hctx]

theorem contextual_pass_cons_pending (pool : ObjectPool) (o : Object)
    (rest : List Object) (info : List (Nat × ObjectInfo)) (uuid : Nat)
    (h : has_custom_name info o = false)
    (hctx : generate_contextual_name o pool = none) :
    contextual_pass pool (o :: rest) info uuid =
      ((contextual_pass pool rest info uuid).1,
       (contextual_pass pool rest info uuid).2.1,
       o :: (contextual_pass pool rest info uuid).2.2) := by
  simp [contextual_pass, h, hctx]

theorem contextual_pass_pending_sublist (pool : ObjectPool) :
    ∀ (objs : List Object) (info : List (Nat × ObjectInfo)) (uuid : Nat),
    ((contextual_pass pool objs info uuid).2.2).Sublist objs := by
  intro objs
  induction objs with
  | nil => intro info uuid; exact List.Sublist.refl _
  | cons o rest ih =>
    intro info uuid
    cases hskip : has_custom_name info o with
    | true =>
      rw [contextual_pass_cons_skip pool o rest info uuid hskip]
      exact (ih info uuid).cons o
    | false =>
      cases hctx : generate_contextual_name o pool with
      | some cname =>
        rw [contextual_pass_cons_ctx pool o rest info uuid cname hskip hctx]
        exact (ih _ _).cons o
      | none =>
        rw [contextual_pass_cons_pending pool o rest info uuid hskip hctx]
        exact (ih _ _).cons₂ o

theorem contextual_pass_lookup_not_mem (pool : ObjectPool) :
    ∀ (objs : List Object) (info : List (Nat × ObjectInfo)) (uuid : Nat)
      (id : Nat), id ∉ objs.map Object.id →
    mapLookup id (contextual_pass pool objs info uuid).1 = mapLookup id info := by
  intro objs
  induction objs with
  | nil => intro info uuid id _; rfl
  | cons o rest ih =>
    intro info uuid id hid
    simp only [List.map_cons, List.mem_cons, not_or] at hid
    cases hskip : has_custom_name info o with
    | true =>
      rw [contextual_pass_cons_skip pool o rest info uuid hskip]
      exact ih info uuid id hid.2
    | false =>
      cases hctx : generate_contextual_name o pool with
      | some cname =>
        rw [contextual_pass_cons_ctx pool o rest info uuid cname hskip hctx]
        rw [ih _ _ id hid.2]
        exact set_name_entry_lookup_ne _ _ _ _ id hid.1
      | none =>
        rw [contextual_pass_cons_pending pool o rest info uuid hskip hctx]
        exact ih info uuid id hid.2

/-- Non-emptiness of every contextual name the heuristics can produce. -/
theorem generate_contextual_name_ne_empty (o : Object) (pool : ObjectPool)
    (n : String) (h : generate_contextual_name o pool = some n) : n ≠ "" := by
  have happend : ∀ (s t : String), s.data ≠ [] → s ++ t ≠ "" := by
    intro s t hs he
    have hdata := congrArg String.data he
    rw [String.data_append] at hdata
    have hempty : ("" : String).data = [] := rfl
    rw [hempty] at hdata
    exact hs (List.append_eq_nil.mp hdata).1
  rcases o with ⟨oid, body⟩
  cases body with
  | key keyCode =>
    simp only [generate_contextual_name] at h
    split_ifs at h with h1 h2 h3
    · injection h with h'; rw [← h']; decide
    · injection h with h'; rw [← h']; decide
    · injection h with h'
      rw [← h']
      exact happend _ _ (by decide)
  | button keyCode =>
    simp only [generate_contextual_name] at h
    split_ifs at h with h1 h2
    · injection h with h'; rw [← h']; decide
    · injection h with h'; rw [← h']; decide
  | container height =>
    simp only [generate_contextual_name] at h
    split_ifs at h with h1 h2
    · injection h with h'; rw [← h']; decide
    · injection h with h'; rw [← h']; decide
  | generic ty =>
    simp only [generate_contextual_name] at h
    exact absurd h (by simp)

/-- After the contextual pass, every batch object either carries a metadata
entry with a set name, or is pending for the default-naming pass. -/
theorem contextual_pass_named_or_pending (pool : ObjectPool) :
    ∀ (objs : List Object) (info : List (Nat × ObjectInfo)) (uuid : Nat),
    (objs.map Object.id).Nodup →
    ∀ o ∈ objs,
      (∃ i, mapLookup o.id (contextual_pass pool objs info uuid).1 = some i ∧
        i.name.isSome = true) ∨
      o ∈ (contextual_pass pool objs info uuid).2.2 := by
  intro objs
  induction objs with
  | nil => intro info uuid _ o ho; simp at ho
  | cons ohead rest ih =>
    intro info uuid hnodup o ho
    have hnodup' : (rest.map Object.id).Nodup := by
      simp only [List.map_cons, List.nodup_cons] at hnodup
      exact hnodup.2
    have hhead_notin : ohead.id ∉ rest.map Object.id := by
      simp only [List.map_cons, List.nodup_cons] at hnodup
      exact hnodup.1
    rcases List.mem_cons.mp ho with rfl | horest
    · cases hskip : has_custom_name info o with
      | true =>
        left
        rw [contextual_pass_cons_skip pool o rest info uuid hskip,
          contextual_pass_lookup_not_mem pool rest info uuid o.id hhead_notin]
        unfold has_custom_name at hskip
        cases hl : mapLookup o.id info with
        | none => rw [hl] at hskip; simp at hskip
        | some i =>
          rw [hl] at hskip
          exact ⟨i, rfl, hskip⟩
      | false =>
        cases hctx : generate_contextual_name o pool with
        | some cname =>
          left
          rw [contextual_pass_cons_ctx pool o rest info uuid cname hskip hctx,
            contextual_pass_lookup_not_mem pool rest _ _ o.id hhead_notin]
          obtain ⟨i, hi, hin⟩ := set_name_entry_lookup_self info uuid o cname
            (generate_contextual_name_ne_empty o pool cname hctx)
          exact ⟨i, hi, by rw [hin]; rfl⟩
        | none =>
          right
          rw [contextual_pass_cons_pending pool o rest info uuid hskip hctx]
          exact List.mem_cons_self _ _
    · cases hskip : has_custom_name info ohead with
      | true =>
        rw [contextual_pass_cons_skip pool ohead rest info uuid hskip]
        exact ih info uuid hnodup' o horest
      | false =>
        cases hctx : generate_contextual_name ohead pool with
        | some cname =>
          rw [contextual_pass_cons_ctx pool ohead rest info uuid cname hskip hctx]
          exact ih _ _ hnodup' o horest
        | none =>
          rw [contextual_pass_cons_pending pool ohead rest info uuid hskip hctx]
          rcases ih info uuid hnodup' o horest with hleft | hright
          · exact Or.inl hleft
          · exact Or.inr (List.mem_cons_of_mem _ hright)

/-! Lemmas about the pool-wide existing-name multiset. -/

theorem countOf_le_foldl_incr (f : Object → String) :
    ∀ (l : List Object) (m : List (String × Nat)) (s : String),
    countOf m s ≤ countOf (l.foldl (fun acc o => incrName acc (f o)) m) s := by
  intro l
  induction l with
  | nil => intro m s; exact le_rfl
  | cons o rest ih =>
    intro m s
    calc countOf m s ≤ countOf (incrName m (f o)) s := countOf_le_incrName m (f o) s
    _ ≤ _ := ih (incrName m (f o)) s

theorem countOf_foldl_incr_mem (f : Object → String) :
    ∀ (l : List Object) (m : List (String × Nat)) (x : Object), x ∈ l →
    1 ≤ countOf (l.foldl (fun acc o => incrName acc (f o)) m) (f x) := by
  intro l
  induction l with
  | nil => intro m x h; simp at h
  | cons o rest ih =>
    intro m x hx
    rcases List.mem_cons.mp hx with rfl | hx'
    · calc (1 : Nat) ≤ countOf (incrName m (f x)) (f x) := by
            rw [countOf_incrName_self]; omega
      _ ≤ _ := countOf_le_foldl_incr f rest (incrName m (f x)) (f x)
    · exact ih (incrName m (f o)) x hx'

theorem build_existing_names_mem (pool : ObjectPool)
    (info : List (Nat × ObjectInfo)) (o : Object) (h : o ∈ pool.objects) :
    1 ≤ countOf (build_existing_names pool info) (pool_display_name info o) :=
  countOf_foldl_incr_mem (pool_display_name info) pool.objects [] o h

/-- The object-info table the batch naming entry point produces, in terms of
the two passes (all three early-return branches agree with this form). -/
theorem apply_smart_naming_object_info (p : EditorProject) (objects : List Object) :
    (p.apply_smart_naming_to_objects objects).object_info =
      (naming_pass p.pool
        (contextual_pass p.pool objects p.object_info p.next_uuid).2.2
        (build_existing_names p.pool
          (contextual_pass p.pool objects p.object_info p.next_uuid).1)
        (contextual_pass p.pool objects p.object_info p.next_uuid).1
        (contextual_pass p.pool objects p.object_info p.next_uuid).2.1).1 := by
  cases objects with
  | nil => rfl
  | cons o rest =>
    simp only [EditorProject.apply_smart_naming_to_objects]
    cases hp : (contextual_pass p.pool (o :: rest) p.object_info p.next_uuid).2.2 with
    | nil => simp [hp, naming_pass]
    | cons q qs => simp [hp]

/-- C6 (amended): after the naming engine runs over a batch of pool objects
with distinct ids, any two distinct-id batch objects, at least one of which
received its name from the smart-default stage (contextual naming returned
none for it and it had no prior custom name), display different names. The
claim as stated over all objects is false: the contextual stage applies no
uniqueness check, see the counterexample. -/
theorem smart_default_naming_unique (p : EditorProject) (objects : List Object)
    (hnodup : (objects.map Object.id).Nodup)
    (hin : ∀ x ∈ objects, x ∈ p.pool.objects)
    (o1 : Object)
    (h1p : o1 ∈ (contextual_pass p.pool objects p.object_info p.next_uuid).2.2)
    (o2 : Object) (h2o : o2 ∈ objects) (hne : o1.id ≠ o2.id) :
    displayed_name (p.apply_smart_naming_to_objects objects).object_info o1 ≠
      displayed_name (p.apply_smart_naming_to_objects objects).object_info o2 := by
  have hsub := contextual_pass_pending_sublist p.pool objects p.object_info p.next_uuid
  have happly := apply_smart_naming_object_info p objects
  set CP := contextual_pass p.pool objects p.object_info p.next_uuid with hCP
  have hpend_sub : ∀ x ∈ CP.2.2, x ∈ objects := fun x hx => hsub.subset hx
  have hpend_nodup : (CP.2.2.map Object.id).Nodup :=
    hnodup.sublist (hsub.map Object.id)
  have htype : ∀ x ∈ CP.2.2, ∃ w ∈ p.pool.objects, w.object_type = x.object_type :=
    fun x hx => ⟨x, hin x (hpend_sub x hx), rfl⟩
  set E := build_existing_names p.pool CP.1 with hE
  rw [happly]
  obtain ⟨i1, n1, hl1, hn1, hc1, hpair1⟩ :=
    naming_pass_spec p.pool CP.2.2 E CP.1 CP.2.1 hpend_nodup htype o1 h1p
  have hd1 : displayed_name (naming_pass p.pool CP.2.2 E CP.1 CP.2.1).1 o1 = n1 := by
    simp [displayed_name, hl1, ObjectInfo.get_name, hn1]
  rw [hd1]
  by_cases h2p : o2 ∈ CP.2.2
  · obtain ⟨i2, n2, hl2, hn2, hc2, hpair2⟩ :=
      naming_pass_spec p.pool CP.2.2 E CP.1 CP.2.1 hpend_nodup htype o2 h2p
    have hd2 : displayed_name (naming_pass p.pool CP.2.2 E CP.1 CP.2.1).1 o2 = n2 := by
      simp [displayed_name, hl2, ObjectInfo.get_name, hn2]
    rw [hd2]
    intro heq
    exact (hpair1 o2 h2p (Ne.symm hne) i2 n2 hl2 hn2) heq.symm
  · have h2id_notin : o2.id ∉ CP.2.2.map Object.id := by
      intro hmem
      obtain ⟨o', ho', hid⟩ := List.mem_map.mp hmem
      have ho'obj : o' ∈ objects := hpend_sub o' ho'
      have ho'eq : o' = o2 :=
        List.inj_on_of_nodup_map hnodup ho'obj h2o hid
      rw [ho'eq] at ho'
      exact h2p ho'
    rcases contextual_pass_named_or_pending p.pool objects p.object_info p.next_uuid
        hnodup o2 h2o with ⟨i2, hl2, hn2some⟩ | hpend2
    · obtain ⟨n2, hn2⟩ := Option.isSome_iff_exists.mp hn2some
      have hl2' : mapLookup o2.id (naming_pass p.pool CP.2.2 E CP.1 CP.2.1).1 =
          some i2 := by
        rw [naming_pass_lookup_not_mem p.pool CP.2.2 E CP.1 CP.2.1 o2.id h2id_notin]
        exact hl2
      have hd2 : displayed_name (naming_pass p.pool CP.2.2 E CP.1 CP.2.1).1 o2 = n2 := by
        simp [displayed_name, hl2', ObjectInfo.get_name, hn2]
      rw [hd2]
      have hpd : pool_display_name CP.1 o2 = n2 := by
        simp [pool_display_name, hl2, ObjectInfo.get_name, hn2]
      have hcount : 1 ≤ countOf E n2 := by
        have hb := build_existing_names_mem p.pool CP.1 o2 (hin o2 h2o)
        rw [hpd] at hb
        exact hb
      intro heq
      rw [← heq] at hcount
      omega
    · exact absurd hpend2 h2p

/-! Concrete naming scenarios. -/

def key_one : Object := ⟨1, .key 0⟩

def key_two : Object := ⟨2, .key 0⟩

/-- A pool of two Keys with key code 0, batch-named on import. -/
def two_keys_named : EditorProject :=
  (EditorProject.from_pool ⟨[key_one, key_two]⟩).apply_smart_naming_to_objects
    [key_one, key_two]

/-- C6 fails as stated: the naming engine run over a pool of two Keys with
key code 0 gives both the contextual name "ACK/Enter Key", so two distinct
pool objects resolve to the same displayed name. -/
theorem naming_uniqueness_counterexample :
    key_one ∈ (EditorProject.from_pool ⟨[key_one, key_two]⟩).pool.objects ∧
    key_two ∈ (EditorProject.from_pool ⟨[key_one, key_two]⟩).pool.objects ∧
    key_one ≠ key_two ∧
    displayed_name two_keys_named.object_info key_one = "ACK/Enter Key" ∧
    displayed_name two_keys_named.object_info key_one =
      displayed_name two_keys_named.object_info key_two := by
  refine ⟨by decide, by decide, by decide, by decide, by decide⟩

def dm_one : Object := ⟨1, .generic .DataMask⟩

def dm_two : Object := ⟨2, .generic .DataMask⟩

def two_datamask_project : EditorProject :=
  EditorProject.from_pool ⟨[dm_one, dm_two]⟩

/-- The import pool of exactly two DataMask objects, batch-named. -/
def two_datamask_named : EditorProject :=
  two_datamask_project.apply_smart_naming_to_objects [dm_one, dm_two]

theorem smart_default_naming_unique_witness :
    displayed_name (two_datamask_project.apply_smart_naming_to_objects
        [dm_one, dm_two]).object_info dm_one ≠
      displayed_name (two_datamask_project.apply_smart_naming_to_objects
        [dm_one, dm_two]).object_info dm_two :=
  smart_default_naming_unique two_datamask_project [dm_one, dm_two] (by decide)
    (by decide) dm_one (by decide) dm_two (by decide) (by decide)

/-- C9 fails as stated: over a pool with exactly two DataMask objects and no
custom names, the batch naming engine does not assign "Main Screen" to the
first object - the type count includes the objects themselves, so the
numbered search starts past them and yields "Data Screen 3". -/
theorem datamask_naming_counterexample :
    displayed_name two_datamask_named.object_info dm_one = "Data Screen 3" ∧
    displayed_name two_datamask_named.object_info dm_one ≠ "Main Screen" := by
  refine ⟨by decide, by decide⟩

/-- C9 (amended): over a pool with exactly two DataMask objects and no
custom names, the batch naming engine assigns the disambiguated names
"Data Screen 3" to the first and "Data Screen 4" to the second; the two
objects never receive the same name. -/
theorem datamask_naming_amended :
    displayed_name two_datamask_named.object_info dm_one = "Data Screen 3" ∧
    displayed_name two_datamask_named.object_info dm_two = "Data Screen 4" ∧
    displayed_name two_datamask_named.object_info dm_one ≠
      displayed_name two_datamask_named.object_info dm_two := by
  refine ⟨by decide, by decide, by decide⟩

end AgIso
